import Mathlib

/-!
Verification of the nice-grpc server middleware terminator and of the
middleware-chain / dispatcher / client-driver behaviours described in the
specification.

The terminator subsystem is translated from
`packages/nice-grpc-server-middleware-terminator/src/index.ts`.  JavaScript
`Set` objects are modelled as insertion-ordered duplicate-free lists;
`AbortController` / `AbortSignal` objects are identified by numeric ids, with
the latched aborted flag represented by membership in a list of aborted ids.
-/

namespace NiceGrpc

/-- Canonical gRPC status codes (`Status` enum of nice-grpc-common). -/
inductive Status
  | OK
  | CANCELLED
  | UNKNOWN
  | INVALID_ARGUMENT
  | DEADLINE_EXCEEDED
  | NOT_FOUND
  | ALREADY_EXISTS
  | PERMISSION_DENIED
  | UNAUTHENTICATED
  | RESOURCE_EXHAUSTED
  | FAILED_PRECONDITION
  | ABORTED
  | OUT_OF_RANGE
  | UNIMPLEMENTED
  | INTERNAL
  | UNAVAILABLE
  | DATA_LOSS
deriving DecidableEq

/-- Errors that can cross the middleware boundary: `ServerError(status, details)`
or any other thrown value. -/
inductive RpcError
  | serverError (status : Status) (details : String)
  | other (msg : String)
deriving DecidableEq

/-- JavaScript `Set.prototype.add`: insertion-ordered, no duplicates. -/
def setAdd {α : Type} [DecidableEq α] (a : α) (s : List α) : List α :=
  if a ∈ s then s else s ++ [a]

/-- JavaScript `Set.prototype.delete`. -/
def setDelete {α : Type} [DecidableEq α] (a : α) (s : List α) : List α :=
  s.filter (fun x => x ≠ a)

/-- Global state of one `TerminatorMiddleware()` instance together with the
signal world it touches.
* `terminated` — the `terminated` flag of the closure.
* `registered` — the `abortControllers` set (ids of inner AbortControllers).
* `abortedCtrls` — inner controllers whose `abort()` has been called (latched).
* `outerAborted` — outer context signals that have fired.
* `listeners` — attached `(outer signal, inner controller)` abort listeners. -/
structure World where
  terminated : Bool
  registered : List Nat
  abortedCtrls : List Nat
  outerAborted : List Nat
  listeners : List (Nat × Nat)
deriving DecidableEq

/-- `abortOnTerminate()` of the context extension (source lines 51–57),
invoked by the call whose inner controller is `c`: if not terminated, add the
controller to the set, else abort it immediately. -/
def abortOnTerminate (c : Nat) (w : World) : World :=
  if !w.terminated then
    { w with registered := setAdd c w.registered }
  else
    { w with abortedCtrls := setAdd c w.abortedCtrls }

/-- `terminate()` (source lines 72–84): if already terminated return; else set
the flag, abort every registered controller, and clear the set. -/
def terminate (w : World) : World :=
  if w.terminated then w
  else
    { w with
        terminated := true
        abortedCtrls := w.registered.foldl (fun ab c => setAdd c ab) w.abortedCtrls
        registered := [] }

/-- An abort event fires on outer signal `o` (latched: refiring an aborted
signal is a no-op).  Every attached `abortListener` for `o` runs, aborting the
corresponding inner controller (source lines 41–45). -/
def fireOuter (o : Nat) (w : World) : World :=
  if o ∈ w.outerAborted then w
  else
    { w with
        outerAborted := w.outerAborted ++ [o]
        abortedCtrls :=
          (w.listeners.filter (fun p => p.1 = o)).foldl
            (fun ab p => setAdd p.2 ab) w.abortedCtrls }

/-- `context.signal.addEventListener('abort', abortListener)` (source line 45)
for the call with outer signal `o` and inner controller `c`. -/
def addAbortListener (o c : Nat) (w : World) : World :=
  { w with listeners := setAdd (o, c) w.listeners }

/-- World events that can happen while a call's body is running: some call
invokes `abortOnTerminate`, `terminate()` is invoked, or an outer signal
fires. -/
inductive WEvent
  | register (c : Nat)
  | terminateEvt
  | outerAbort (o : Nat)
deriving DecidableEq

def wStep (w : World) : WEvent → World
  | .register c => abortOnTerminate c w
  | .terminateEvt => terminate w
  | .outerAbort o => fireOuter o w

/-- How the inner chain of a call ends: normal return, thrown error, or the
consumer stopping the generator early. -/
inductive Outcome (R : Type)
  | ok (r : R)
  | error (e : RpcError)
  | earlyStop
deriving DecidableEq

/-- The `catch` clause of `terminatorMiddleware` (source lines 59–64): replace
the error with `ServerError(UNAVAILABLE, "Server shutting down")` iff the
inner signal is aborted and the outer signal is not. -/
def terminatorCatch (o c : Nat) (w : World) (e : RpcError) : RpcError :=
  if c ∈ w.abortedCtrls ∧ o ∉ w.outerAborted then
    .serverError .UNAVAILABLE "Server shutting down"
  else e

/-- The `finally` clause of `terminatorMiddleware` (source lines 65–68):
detach the abort listener and delete the controller from the set. -/
def terminatorFinally (o c : Nat) (w : World) : World :=
  { w with
      listeners := setDelete (o, c) w.listeners
      registered := setDelete c w.registered }

/-- One complete run of `terminatorMiddleware` for a call with outer signal
`o` and fresh inner controller `c`: attach the listener, run the body (during
which world events `body` occur and which ends with `out`), apply the catch
clause to errors, and run the finally clause. -/
def runTerminatorCall {R : Type} (o c : Nat) (body : List WEvent)
    (out : Outcome R) (w : World) : Outcome R × World :=
  let w2 := body.foldl wStep (addAbortListener o c w)
  let result :=
    match out with
    | .error e => Outcome.error (terminatorCatch o c w2 e)
    | x => x
  (result, terminatorFinally o c w2)

theorem mem_setAdd {α : Type} [DecidableEq α] (c x : α) (s : List α) :
    x ∈ setAdd c s ↔ x = c ∨ x ∈ s := by
  unfold setAdd
  by_cases h : c ∈ s
  · simp only [if_pos h]
    exact ⟨Or.inr, fun hx => hx.elim (fun hxc => hxc ▸ h) id⟩
  · simp only [if_neg h, List.mem_append, List.mem_singleton]
    tauto

theorem self_mem_setAdd {α : Type} [DecidableEq α] (c : α) (s : List α) :
    c ∈ setAdd c s := (mem_setAdd c c s).mpr (Or.inl rfl)

theorem setAdd_idem {α : Type} [DecidableEq α] (c : α) (s : List α) :
    setAdd c (setAdd c s) = setAdd c s := by
  unfold setAdd
  by_cases h : c ∈ s
  · simp [if_pos h]
  · have : c ∈ s ++ [c] := by simp
    simp [if_neg h, this]

theorem not_mem_setDelete {α : Type} [DecidableEq α] (a : α) (s : List α) :
    a ∉ setDelete a s := by
  unfold setDelete
  simp

theorem mem_foldl_setAdd {α β : Type} [DecidableEq α] (f : β → α) (ps : List β)
    (ab : List α) (x : α) :
    x ∈ ps.foldl (fun a p => setAdd (f p) a) ab ↔ x ∈ ps.map f ∨ x ∈ ab := by
  induction ps generalizing ab with
  | nil => simp
  | cons p ps ih =>
    simp only [List.foldl_cons, List.map_cons, List.mem_cons, ih, mem_setAdd]
    tauto

theorem mem_foldl_setAdd_id {α : Type} [DecidableEq α] (cs ab : List α) (x : α) :
    x ∈ cs.foldl (fun a c => setAdd c a) ab ↔ x ∈ cs ∨ x ∈ ab := by
  induction cs generalizing ab with
  | nil => simp
  | cons c cs ih =>
    simp only [List.foldl_cons, List.mem_cons, ih, mem_setAdd]
    tauto

theorem terminate_terminated (w : World) : (terminate w).terminated = true := by
  unfold terminate
  cases h : w.terminated with
  | true => simp [h]
  | false => simp [h]

theorem wStep_keeps_terminated (w : World) (e : WEvent) (h : w.terminated = true) :
    (wStep w e).terminated = true := by
  cases e with
  | register c => simp [wStep, abortOnTerminate, h]
  | terminateEvt => simp [wStep, terminate, h]
  | outerAbort o =>
    simp only [wStep, fireOuter]
    split <;> simp [h]

theorem wStep_keeps_registered (w : World) (e : WEvent) (h : w.terminated = true) :
    (wStep w e).registered = w.registered := by
  cases e with
  | register c => simp [wStep, abortOnTerminate, h]
  | terminateEvt => simp [wStep, terminate, h]
  | outerAbort o =>
    simp only [wStep, fireOuter]
    split <;> simp

theorem foldl_wStep_of_terminated (es : List WEvent) (v : World)
    (hv : v.terminated = true) :
    (es.foldl wStep v).terminated = true ∧ (es.foldl wStep v).registered = v.registered := by
  induction es generalizing v with
  | nil => exact ⟨hv, rfl⟩
  | cons e es ih =>
    have h1 := wStep_keeps_terminated v e hv
    have h2 := wStep_keeps_registered v e hv
    have h3 := ih (wStep v e) h1
    exact ⟨h3.1, h3.2.trans h2⟩

/-- C2: `terminate()` is idempotent: the first invocation aborts exactly the
controllers registered in the set at that moment and empties the set; a
subsequent invocation returns without aborting anything, so calling
`terminate()` twice aborts exactly the set present at the first call. -/
theorem terminate_idempotent_spec (w : World) :
    terminate (terminate w) = terminate w ∧
    (w.terminated = false →
      (terminate w).registered = [] ∧
      ∀ x, x ∈ (terminate w).abortedCtrls ↔ x ∈ w.registered ∨ x ∈ w.abortedCtrls) ∧
    (w.terminated = true → terminate w = w) := by
  refine ⟨?_, ?_, ?_⟩
  · by_cases h : w.terminated = true
    · simp [terminate, h]
    · have h' : w.terminated = false := by simpa using h
      simp [terminate, h']
  · intro h
    refine ⟨by simp [terminate, h], fun x => ?_⟩
    simp only [terminate, h, Bool.false_eq_true, if_false]
    exact mem_foldl_setAdd_id w.registered w.abortedCtrls x
  · intro h
    simp [terminate, h]

/-- Witness for terminate_idempotent_spec at concrete states. -/
theorem terminate_idempotent_witness :
    (terminate ⟨false, [5, 7], [3], [], []⟩).registered = [] ∧
    (5 ∈ (terminate ⟨false, [5, 7], [3], [], []⟩).abortedCtrls ↔
      5 ∈ [5, 7] ∨ 5 ∈ [3]) ∧
    terminate ⟨true, [], [9], [], []⟩ = ⟨true, [], [9], [], []⟩ := by
  refine ⟨?_, ?_, ?_⟩
  · exact ((terminate_idempotent_spec ⟨false, [5, 7], [3], [], []⟩).2.1 rfl).1
  · exact ((terminate_idempotent_spec ⟨false, [5, 7], [3], [], []⟩).2.1 rfl).2 5
  · exact (terminate_idempotent_spec ⟨true, [], [9], [], []⟩).2.2 rfl

/-- C3: after `terminate()` has returned, no subsequent world event ever adds
a controller to the set, and a call that invokes `abortOnTerminate` after
that point has its inner controller aborted immediately instead of being
registered. -/
theorem register_after_terminate (w : World) (es : List WEvent) (c : Nat) :
    (es.foldl wStep (terminate w)).registered = (terminate w).registered ∧
    c ∈ (abortOnTerminate c (es.foldl wStep (terminate w))).abortedCtrls ∧
    (abortOnTerminate c (es.foldl wStep (terminate w))).registered =
      (terminate w).registered := by
  obtain ⟨h1, h2⟩ := foldl_wStep_of_terminated es (terminate w) (terminate_terminated w)
  refine ⟨h2, ?_, ?_⟩
  · simp [abortOnTerminate, h1, self_mem_setAdd]
  · simp [abortOnTerminate, h1, h2]

theorem abortOnTerminate_self_idem (w : World) (c : Nat) :
    abortOnTerminate c (abortOnTerminate c w) = abortOnTerminate c w := by
  cases hw : w.terminated with
  | false => simp [abortOnTerminate, hw, setAdd_idem]
  | true => simp [abortOnTerminate, hw, setAdd_idem]

/-- C8: within a single call, `abortOnTerminate()` is idempotent: any number
of invocations has the effect of one, and before `terminate()` the set holds
that call's inner controller exactly once. -/
theorem abortOnTerminate_idempotent (w : World) (c : Nat) (n : Nat) :
    (abortOnTerminate c)^[n + 1] w = abortOnTerminate c w ∧
    (w.terminated = false → List.count c w.registered ≤ 1 →
      ((abortOnTerminate c)^[n + 1] w).registered.count c = 1) := by
  have hiter : ∀ m, (abortOnTerminate c)^[m + 1] w = abortOnTerminate c w := by
    intro m
    induction m with
    | zero => simp
    | succ k ih =>
      rw [Function.iterate_succ_apply', ih, abortOnTerminate_self_idem]
  refine ⟨hiter n, ?_⟩
  intro hterm hcount
  rw [hiter n]
  simp only [abortOnTerminate, hterm, Bool.not_false, if_true]
  unfold setAdd
  by_cases h : c ∈ w.registered
  · rw [if_pos h]
    have h1 : 0 < w.registered.count c := List.count_pos_iff.mpr h
    omega
  · rw [if_neg h]
    have h0 : w.registered.count c = 0 := List.count_eq_zero.mpr h
    simp [List.count_append, h0]

/-- Witness for abortOnTerminate_idempotent at a concrete state. -/
theorem abortOnTerminate_idempotent_witness :
    ((abortOnTerminate 4)^[3] ⟨false, [], [], [], []⟩).registered.count 4 = 1 :=
  (abortOnTerminate_idempotent ⟨false, [], [], [], []⟩ 4 2).2 rfl (by decide)

/-- C1: on a handler error, if at that moment the call's inner signal is
aborted and the outer context signal is not, the terminator middleware raises
`ServerError(UNAVAILABLE, "Server shutting down")` in place of the original
error; in every other case the original error is rethrown unchanged. -/
theorem terminator_error_replacement {R : Type} (o c : Nat) (body : List WEvent)
    (w : World) (e : RpcError) :
    ((c ∈ (body.foldl wStep (addAbortListener o c w)).abortedCtrls ∧
        o ∉ (body.foldl wStep (addAbortListener o c w)).outerAborted) →
      (runTerminatorCall o c body (Outcome.error e : Outcome R) w).1 =
        Outcome.error (RpcError.serverError Status.UNAVAILABLE "Server shutting down")) ∧
    (¬(c ∈ (body.foldl wStep (addAbortListener o c w)).abortedCtrls ∧
        o ∉ (body.foldl wStep (addAbortListener o c w)).outerAborted) →
      (runTerminatorCall o c body (Outcome.error e : Outcome R) w).1 =
        Outcome.error e) := by
  constructor
  · intro h
    simp only [runTerminatorCall, terminatorCatch]
    rw [if_pos h]
  · intro h
    simp only [runTerminatorCall, terminatorCatch]
    rw [if_neg h]

/-- Witness for terminator_error_replacement: a run whose body registers the
controller and then terminates gets the replacement; a run with a quiet body
rethrows the original error. -/
theorem terminator_error_replacement_witness :
    (runTerminatorCall 0 1 [WEvent.register 1, WEvent.terminateEvt]
        (Outcome.error (RpcError.other "boom") : Outcome Unit)
        ⟨false, [], [], [], []⟩).1 =
      Outcome.error (RpcError.serverError Status.UNAVAILABLE "Server shutting down") ∧
    (runTerminatorCall 0 1 [] (Outcome.error (RpcError.other "boom") : Outcome Unit)
        ⟨false, [], [], [], []⟩).1 = Outcome.error (RpcError.other "boom") := by
  constructor
  · exact (terminator_error_replacement 0 1 [WEvent.register 1, WEvent.terminateEvt]
      ⟨false, [], [], [], []⟩ (RpcError.other "boom")).1 (by decide)
  · exact (terminator_error_replacement 0 1 [] ⟨false, [], [], [], []⟩
      (RpcError.other "boom")).2 (by decide)

/-- C4: on every exit path of the terminator middleware (normal completion,
thrown error, or consumer early-stop) the call's inner controller is removed
from the process-wide set and the outer-to-inner abort listener is
detached. -/
theorem terminator_cleanup_on_exit {R : Type} (o c : Nat) (body : List WEvent)
    (out : Outcome R) (w : World) :
    c ∉ ((runTerminatorCall o c body out w).2).registered ∧
    (o, c) ∉ ((runTerminatorCall o c body out w).2).listeners :=
  ⟨not_mem_setDelete c _, not_mem_setDelete (o, c) _⟩

theorem wStep_listeners (w : World) (e : WEvent) :
    (wStep w e).listeners = w.listeners := by
  cases e with
  | register c =>
    simp only [wStep, abortOnTerminate]
    split <;> rfl
  | terminateEvt =>
    simp only [wStep, terminate]
    split <;> rfl
  | outerAbort o =>
    simp only [wStep, fireOuter]
    split <;> rfl

theorem wStep_abortedCtrls_mono (w : World) (e : WEvent) (c : Nat)
    (h : c ∈ w.abortedCtrls) : c ∈ (wStep w e).abortedCtrls := by
  cases e with
  | register c' =>
    simp only [wStep, abortOnTerminate]
    split
    · exact h
    · exact (mem_setAdd c' c _).mpr (Or.inr h)
  | terminateEvt =>
    simp only [wStep, terminate]
    split
    · exact h
    · exact (mem_foldl_setAdd_id _ _ c).mpr (Or.inr h)
  | outerAbort o =>
    simp only [wStep, fireOuter]
    split
    · exact h
    · exact (mem_foldl_setAdd (Prod.snd (α := Nat) (β := Nat)) _ _ c).mpr (Or.inr h)

theorem cascade_invariant_step (o c : Nat) (w : World) (e : WEvent)
    (hl : (o, c) ∈ w.listeners)
    (hinv : o ∈ w.outerAborted → c ∈ w.abortedCtrls) :
    o ∈ (wStep w e).outerAborted → c ∈ (wStep w e).abortedCtrls := by
  intro ho
  cases e with
  | register c' =>
    have hu : (wStep w (WEvent.register c')).outerAborted = w.outerAborted := by
      simp only [wStep, abortOnTerminate]
      split <;> rfl
    rw [hu] at ho
    exact wStep_abortedCtrls_mono w _ c (hinv ho)
  | terminateEvt =>
    have hu : (wStep w WEvent.terminateEvt).outerAborted = w.outerAborted := by
      simp only [wStep, terminate]
      split <;> rfl
    rw [hu] at ho
    exact wStep_abortedCtrls_mono w _ c (hinv ho)
  | outerAbort o' =>
    by_cases hmem : o' ∈ w.outerAborted
    · simp only [wStep, fireOuter, if_pos hmem] at ho ⊢
      exact hinv ho
    · simp only [wStep, fireOuter, if_neg hmem] at ho ⊢
      rw [mem_foldl_setAdd (Prod.snd (α := Nat) (β := Nat))]
      rcases List.mem_append.mp ho with h1 | h1
      · exact Or.inr (hinv h1)
      · left
        have ho' : o = o' := by simpa using h1
        subst ho'
        refine List.mem_map.mpr ⟨(o, c), ?_, rfl⟩
        rw [List.mem_filter]
        exact ⟨hl, by simp⟩

/-- C9: while a call wrapped by the terminator middleware is in flight (its
abort listener attached and the outer signal not yet fired), any sequence of
world events that fires the outer context signal also aborts the call's inner
controller, so the handler never observes the outer signal aborted while its
own signal is not. -/
theorem outer_abort_cascades (o c : Nat) (w : World) (es : List WEvent)
    (hl : (o, c) ∈ w.listeners) (ho : o ∉ w.outerAborted) :
    o ∈ (es.foldl wStep w).outerAborted → c ∈ (es.foldl wStep w).abortedCtrls := by
  have key : ∀ (es : List WEvent) (v : World), (o, c) ∈ v.listeners →
      (o ∈ v.outerAborted → c ∈ v.abortedCtrls) →
      (o ∈ (es.foldl wStep v).outerAborted → c ∈ (es.foldl wStep v).abortedCtrls) := by
    intro es
    induction es with
    | nil => exact fun v _ hinv => hinv
    | cons e es ih =>
      intro v hlv hinv
      exact ih (wStep v e) (by rw [wStep_listeners]; exact hlv)
        (cascade_invariant_step o c v e hlv hinv)
  exact key es w hl (fun hmem => absurd hmem ho)

/-- Witness for outer_abort_cascades: firing the outer signal 0 aborts the
attached inner controller 1. -/
theorem outer_abort_cascades_witness :
    1 ∈ (([WEvent.outerAbort 0].foldl wStep
      ⟨false, [], [], [], [(0, 1)]⟩)).abortedCtrls :=
  outer_abort_cascades 0 1 ⟨false, [], [], [], [(0, 1)]⟩ [WEvent.outerAbort 0]
    (by decide) (by decide) (by decide)

/-- Server call context as seen by the terminator middleware: the standard
fields plus the optional `abortOnTerminate` extension, recorded as the id of
the inner controller it targets (`none` when the extension is absent). -/
structure CallContext where
  metadata : List (String × List String)
  header : List (String × List String)
  trailer : List (String × List String)
  peer : String
  signal : Nat
  abortOnTerminateExt : Option Nat
deriving DecidableEq

/-- The context handed to `call.next` by the terminator middleware (source
lines 48–58): a shallow copy of the outer context with `signal` replaced by
the inner controller's signal and `abortOnTerminate` added. -/
def innerContext (ctx : CallContext) (c : Nat) : CallContext :=
  { ctx with signal := c, abortOnTerminateExt := some c }

/-- C10: the terminator middleware does not mutate the outer context: what it
passes to `call.next` is a copy agreeing with the outer context on every
field except `signal` (replaced by the inner signal) and the added
`abortOnTerminate` extension, while the outer context value itself is left
untouched for the layers above. -/
theorem innerContext_frame (ctx : CallContext) (c : Nat) :
    (innerContext ctx c).metadata = ctx.metadata ∧
    (innerContext ctx c).header = ctx.header ∧
    (innerContext ctx c).trailer = ctx.trailer ∧
    (innerContext ctx c).peer = ctx.peer ∧
    (innerContext ctx c).signal = c ∧
    (innerContext ctx c).abortOnTerminateExt = some c :=
  ⟨rfl, rfl, rfl, rfl, rfl, rfl⟩

/-- Unary request message of the test service. -/
structure TestRequest where
  id : String
deriving DecidableEq

/-- Unary response message of the test service. -/
structure TestResponse where
  id : String
deriving DecidableEq

/-- Entries of the action log recorded by the test middlewares and the
handler of the middleware-chain test. -/
inductive ActionEntry
  | start (ty : String) (requestStream : Bool) (responseStream : Bool)
  | request (ty : String) (reqId : String)
  | handlerRequest (test1 : Option String) (test2 : Option String)
  | response (ty : String) (respId : String)
deriving DecidableEq

/-- A unary server handler in log-passing style: it receives the request, the
context extension slots, and the action log so far, and returns the response
together with the extended log. -/
def UHandler : Type :=
  TestRequest → List (String × String) → List ActionEntry →
    TestResponse × List ActionEntry

/-- Modelled from the spec: `createTestServerMiddleware(extension, actions,
tag)` used by the middleware-chain test (the utility itself is outside the
surveyed sources).  Per the spec scenario and the test's recorded log it
logs `<tag>start` with the method's streaming flags, logs `<tag>request` with
the request, delegates to the next layer with the context extended by its
slot, and after delegation logs `<tag>response` with the response. -/
def testServerMiddleware (extKey extVal tag : String) (next : UHandler) : UHandler :=
  fun req ctx log =>
    let log1 := log ++ [ActionEntry.start (tag ++ "start") false false]
    let log2 := log1 ++ [ActionEntry.request (tag ++ "request") req.id]
    let r := next req (ctx ++ [(extKey, extVal)]) log2
    (r.1, r.2 ++ [ActionEntry.response (tag ++ "response") r.1.id])

/-- The unary handler of the chain test (`src/unnamed/part_000`, lines
28–35): it logs a `request` action with the context values `test1` and
`test2` and echoes the request id. -/
def chainTestHandler : UHandler :=
  fun req ctx log =>
    (⟨req.id⟩,
      log ++ [ActionEntry.handlerRequest (ctx.lookup "test1") (ctx.lookup "test2")])

/-- Modelled from the spec: the middleware chain composition law —
`server.use(m1).use(m2)` applied to handler `h` yields
`m1(·, ctx → m2(·, ctx → h(·, ctx)))`; the first `use` is outermost. -/
def useChain (ms : List (UHandler → UHandler)) (h : UHandler) : UHandler :=
  ms.foldr (fun m acc => m acc) h

/-- C5: with middleware chain m1 then m2 around a unary handler, a call
produces the action log m1-start, m1-request, m2-start, m2-request, handler
request, m2-response, m1-response in exactly that order, and the context
extension values injected by both middlewares are visible inside the
handler. -/
theorem middleware_chain_order (reqId : String) :
    useChain
      [testServerMiddleware "test1" "test-value-1" "middleware1-",
        testServerMiddleware "test2" "test-value-2" "middleware2-"]
      chainTestHandler ⟨reqId⟩ [] [] =
    (⟨reqId⟩,
      [ActionEntry.start "middleware1-start" false false,
        ActionEntry.request "middleware1-request" reqId,
        ActionEntry.start "middleware2-start" false false,
        ActionEntry.request "middleware2-request" reqId,
        ActionEntry.handlerRequest (some "test-value-1") (some "test-value-2"),
        ActionEntry.response "middleware2-response" reqId,
        ActionEntry.response "middleware1-response" reqId]) := rfl

/-- How a handler invocation ends. -/
inductive HandlerOutcome
  | ok (resp : TestResponse)
  | serverError (status : Status) (details : String)
  | otherError (msg : String)
deriving DecidableEq

/-- A handler exit: the trailer metadata the handler has set on the context
by the time it ends, and how it ended. -/
structure HandlerExit where
  trailerMd : List (String × List String)
  outcome : HandlerOutcome
deriving DecidableEq

/-- The trailer frame the server sends at the end of a call. -/
structure TrailerFrame where
  status : Status
  details : String
  metadata : List (String × List String)
deriving DecidableEq

/-- Modelled from the spec: the server call dispatcher's terminal step (the
dispatcher itself is outside the surveyed sources).  On normal completion it
sends a trailer with status OK; on `ServerError(status, details)` it sends a
trailer with that status and details, preserving any trailer metadata set
before the error; on any other thrown error it sends `UNKNOWN` with a
sanitized message. -/
def serverTrailer (ex : HandlerExit) : TrailerFrame :=
  match ex.outcome with
  | .ok _ => ⟨Status.OK, "", ex.trailerMd⟩
  | .serverError st d => ⟨st, d, ex.trailerMd⟩
  | .otherError _ => ⟨Status.UNKNOWN, "Unknown server error", ex.trailerMd⟩

/-- What the client call completes with. -/
inductive ClientResult
  | ok (resp : TestResponse)
  | clientError (path : String) (status : Status) (details : String)
      (trailerMd : List (String × List String))
deriving DecidableEq

/-- Modelled from the spec: the client call driver's completion step — on
trailer receipt, if the status is OK the call completes with the response,
otherwise a `ClientError(path, status, details, trailerMetadata)` is
raised. -/
def clientComplete (path : String) (resp : Option TestResponse)
    (t : TrailerFrame) : ClientResult :=
  if t.status = Status.OK then ClientResult.ok (resp.getD ⟨""⟩)
  else ClientResult.clientError path t.status t.details t.metadata

/-- Modelled from the spec: one error exchange — the server maps the handler
exit to a trailer, the client completes from that trailer; the exchange never
touches the server-side context signal, whose aborted flag is threaded
through unchanged. -/
def runErrorExchange (path : String) (ex : HandlerExit) (signalAborted : Bool) :
    TrailerFrame × ClientResult × Bool :=
  let t := serverTrailer ex
  (t, clientComplete path none t, signalAborted)

/-- C6: when the handler sets trailer metadata and then throws
`ServerError(status, details)` with a non-OK status, the server sends a
trailer with that status and details preserving the metadata, the client's
call fails with a `ClientError` carrying the method path, that status, those
details and that trailer metadata, and the server-side signal is not
aborted. -/
theorem server_error_preserves_trailer (path d : String) (st : Status)
    (md : List (String × List String)) (hst : st ≠ Status.OK) :
    runErrorExchange path ⟨md, HandlerOutcome.serverError st d⟩ false =
      (⟨st, d, md⟩, ClientResult.clientError path st d md, false) := by
  simp only [runErrorExchange, serverTrailer, clientComplete]
  rw [if_neg hst]

/-- Witness for server_error_preserves_trailer at the inputs of the
client-streaming error test. -/
theorem server_error_preserves_trailer_witness :
    runErrorExchange "/nice_grpc.test.Test/TestClientStream"
        ⟨[("test", ["test-value-1", "test-value-2"])],
          HandlerOutcome.serverError Status.NOT_FOUND "test-0"⟩ false =
      (⟨Status.NOT_FOUND, "test-0", [("test", ["test-value-1", "test-value-2"])]⟩,
        ClientResult.clientError "/nice_grpc.test.Test/TestClientStream"
          Status.NOT_FOUND "test-0" [("test", ["test-value-1", "test-value-2"])],
        false) :=
  server_error_preserves_trailer "/nice_grpc.test.Test/TestClientStream" "test-0"
    Status.NOT_FOUND [("test", ["test-value-1", "test-value-2"])] (by decide)

/-- Observable state of one client-streaming call that is cancelled from the
outside. -/
structure CancelState where
  callCompleted : Bool
  transportCancelled : Bool
  requestCleanupRan : Bool
  clientRejectedAbortError : Bool
  serverSignalAborted : Bool
  serverObservedAbortError : Bool
deriving DecidableEq

/-- Modelled from the spec: the client call driver's reaction when
`CallOptions.signal` fires before completion — it cancels the transport call,
drains the request sequence through its cancellation path (running its
`finally` cleanup), and raises an `AbortError` to the consumer; a firing
after completion is ignored. -/
def onExternalSignalAbort (st : CancelState) : CancelState :=
  if st.callCompleted then st
  else
    { st with
        transportCancelled := true
        requestCleanupRan := true
        clientRejectedAbortError := true }

/-- Modelled from the spec: the server side of a cancelled call — the
transport cancellation fires the server context signal, and the value thrown
into the handler's suspension is recognised by `isAbortError`. -/
def serverObserveCancel (st : CancelState) : CancelState :=
  if st.transportCancelled then
    { st with serverSignalAborted := true, serverObservedAbortError := true }
  else st

/-- C7: if the external CallOptions signal fires before the call completes,
the client's pending promise rejects with an AbortError, the user-supplied
request sequence's finally cleanup runs, and the server-side handler observes
the cancellation through its context signal as a value recognised by
`isAbortError`. -/
theorem external_cancel_behaviour (st : CancelState)
    (h : st.callCompleted = false) :
    (serverObserveCancel (onExternalSignalAbort st)).clientRejectedAbortError = true ∧
    (serverObserveCancel (onExternalSignalAbort st)).requestCleanupRan = true ∧
    (serverObserveCancel (onExternalSignalAbort st)).serverSignalAborted = true ∧
    (serverObserveCancel (onExternalSignalAbort st)).serverObservedAbortError = true := by
  simp [onExternalSignalAbort, serverObserveCancel, h]

/-- Witness for external_cancel_behaviour at the initial call state. -/
theorem external_cancel_behaviour_witness :
    (serverObserveCancel (onExternalSignalAbort
      ⟨false, false, false, false, false, false⟩)).clientRejectedAbortError = true :=
  (external_cancel_behaviour ⟨false, false, false, false, false, false⟩ rfl).1

end NiceGrpc
